import Mathlib

/-!
Shallow embedding of the github-trending-ja enrichment pipeline.

The repository contains two reference implementations of (almost) the same
fetch → enrich → publish pipeline:
  * a Go batch program (types `TrendingRepo`, `OllamaClient`, functions
    `run`, `fetchReadme`, `Summarize`, `languageToColor`,
    `buildDiscordMessages`), bundled in the repository next to package.json;
  * a TypeScript Cloudflare worker, server/index.ts (`fetchTrending`,
    `fetchReadme`, `summarizeReadme`, `getTrendingReposWithSummary`).

Strings are modelled as lists of characters (`Str`).  All network effects
(HTTP fetches, the go-github library, the Ollama and Gemini generation
backends) are passed in as oracle functions, so every definition is an
executable total function of its oracles; where a claim concerns which
requests are sent, a definition also returns the list of submitted prompts.
-/

/-- Pipeline strings: a string is modelled as its character sequence. -/
abbrev Str := List Char

/-- Whether a string contains the owner/name separator character. -/
def hasSlash : Str → Bool
  | [] => false
  | c :: cs => if c = '/' then true else hasSlash cs

/-- Go `strings.SplitN(s, sep, 2)` for a one-character separator: at most two
parts, the second part being the entire remainder after the first separator. -/
def splitN2 (sep : Char) : Str → List Str
  | [] => [[]]
  | c :: cs =>
    if c = sep then [[], cs]
    else
      match splitN2 sep cs with
      | [x] => [c :: x]
      | [x, y] => [c :: x, y]
      | _ => []

/-- JavaScript `String.prototype.split` with a one-character separator:
every separator splits, adjacent separators give empty segments. -/
def splitAll (sep : Char) : Str → List Str
  | [] => [[]]
  | c :: cs =>
    if c = sep then [] :: splitAll sep cs
    else
      match splitAll sep cs with
      | [] => [[c]]
      | g :: gs => (c :: g) :: gs

/-- Contributor of a trending repository (shared by both implementations). -/
structure Contributor where
  avatar : Str
  cname : Str
  url : Str
deriving DecidableEq

/-- A raw trending item as returned by the source feed.  The Go struct keeps
`Language`/`LanguageColor` as plain strings with `omitempty` (absent ↦ "");
the TypeScript type marks them optional.  We use `Option Str`, and the Go
call sites read the value through `Option.getD` with the empty string. -/
structure TrendingRepo where
  title : Str
  url : Str
  description : Str
  language : Option Str
  languageColor : Option Str
  stars : Str
  forks : Str
  addStars : Str
  contributors : List Contributor
deriving DecidableEq

/-- An enriched item: every field of the source item plus `summary`. -/
structure TrendingRepoWithSummary where
  title : Str
  url : Str
  description : Str
  summary : Str
  language : Option Str
  languageColor : Option Str
  stars : Str
  forks : Str
  addStars : Str
  contributors : List Contributor
deriving DecidableEq

/-- Assemble the enriched item from a source item and a summary, copying
every source field verbatim (Go `run` step 5; TS `{...repo, summary}`). -/
def withSummary (repo : TrendingRepo) (summary : Str) : TrendingRepoWithSummary :=
  { title := repo.title, url := repo.url, description := repo.description,
    summary := summary, language := repo.language,
    languageColor := repo.languageColor, stars := repo.stars,
    forks := repo.forks, addStars := repo.addStars,
    contributors := repo.contributors }

/-- Forget the summary again (used to state frame conditions). -/
def dropSummary (r : TrendingRepoWithSummary) : TrendingRepo :=
  { title := r.title, url := r.url, description := r.description,
    language := r.language, languageColor := r.languageColor,
    stars := r.stars, forks := r.forks, addStars := r.addStars,
    contributors := r.contributors }

/-! ### The Go pipeline -/

/-- Fixed placeholder returned by `OllamaClient.Summarize` on empty input. -/
def goNoDescription : Str := "説明なし".data

/-- Fixed placeholder used by the Go pipeline for failed summarization. -/
def goSummarizeFailed : Str := "要約失敗".data

/-- Truncation cap `maxReadmeLen` of `OllamaClient.Summarize`.  Go measures
`len(readme)` on the byte representation; the model measures the same cap on
the character sequence. -/
def goMaxReadmeLen : Nat := 10000

/-- The fixed instruction template prepended to the readme by
`OllamaClient.Summarize` before submission. -/
def goPromptHeader : Str := "以下のREADMEの内容を日本語で短く要約せよ。100文字以内で\n\n".data

/-- Go `strings.TrimSpace`: drop leading and trailing whitespace. -/
def goTrimSpace (s : Str) : Str :=
  ((s.dropWhile Char.isWhitespace).reverse.dropWhile Char.isWhitespace).reverse

/-- Go `OllamaClient.Summarize`.  `generate` is the oracle for the whole
HTTP interaction (marshal, POST /api/generate, status check, decode): it maps
the submitted prompt to either a transport/status/decode error or the decoded
`response` field.  The second component is the list of prompts submitted to
the backend (empty when no network call happens). -/
def ollamaSummarize (generate : Str → Except Str Str) (readme : Str) :
    Except Str Str × List Str :=
  if readme = [] then (.ok goNoDescription, [])
  else
    let readme2 := if readme.length > goMaxReadmeLen then readme.take goMaxReadmeLen else readme
    let prompt := goPromptHeader ++ readme2
    match generate prompt with
    | .error e => (.error e, [prompt])
    | .ok resp =>
      (if resp = [] then .ok goSummarizeFailed else .ok (goTrimSpace resp), [prompt])

/-- Go `fetchReadme`: one `GetReadme` library call (oracle `getReadme`,
returning the repository-content value, modelled as its opaque payload
string) followed by `GetContent` (oracle `getContent`).  Failure of either
step is propagated as an error, as in the source. -/
def goFetchReadme (getReadme : Str → Str → Except Str Str)
    (getContent : Str → Except Str Str) (owner rname : Str) : Except Str Str :=
  match getReadme owner rname with
  | .error e => .error (("get readme: ".data) ++ e)
  | .ok payload =>
    match getContent payload with
    | .error e => .error (("get content: ".data) ++ e)
    | .ok content => .ok content

/-- The readme text the Go `run` loop feeds to the summarizer: the fetched
readme, or the item's description when the fetch failed. -/
def goReadmeOf (getReadme : Str → Str → Except Str Str)
    (getContent : Str → Except Str Str) (repo : TrendingRepo)
    (owner rname : Str) : Str :=
  match goFetchReadme getReadme getContent owner rname with
  | .ok content => content
  | .error _ => repo.description

/-- The summary the Go `run` loop stores: the summarizer's answer, or the
fixed failure placeholder when `Summarize` returned an error. -/
def goSummaryOf (generate : Str → Except Str Str) (readme : Str) : Str :=
  match (ollamaSummarize generate readme).1 with
  | .ok s => s
  | .error _ => goSummarizeFailed

/-- One iteration of the Go `run` loop for an item already split into
owner and name. -/
def goEnrichItem (getReadme : Str → Str → Except Str Str)
    (getContent : Str → Except Str Str) (generate : Str → Except Str Str)
    (repo : TrendingRepo) (owner rname : Str) : TrendingRepoWithSummary :=
  withSummary repo (goSummaryOf generate (goReadmeOf getReadme getContent repo owner rname))

/-- One iteration of the Go `run` loop including the title split.  The
catch-all branch is unreachable for retained items (`run` skips items whose
title does not split into exactly two parts). -/
def goEnrichOne (getReadme : Str → Str → Except Str Str)
    (getContent : Str → Except Str Str) (generate : Str → Except Str Str)
    (repo : TrendingRepo) : TrendingRepoWithSummary :=
  match splitN2 '/' repo.title with
  | [owner, rname] => goEnrichItem getReadme getContent generate repo owner rname
  | _ => withSummary repo goSummarizeFailed

/-- Step 5 of the Go `run`: walk the trending list in order; skip items whose
title does not split into exactly two parts (logged and omitted), enrich and
append the rest. -/
def goRunEnrich (getReadme : Str → Str → Except Str Str)
    (getContent : Str → Except Str Str) (generate : Str → Except Str Str) :
    List TrendingRepo → List TrendingRepoWithSummary
  | [] => []
  | repo :: rest =>
    match splitN2 '/' repo.title with
    | [owner, rname] =>
      goEnrichItem getReadme getContent generate repo owner rname ::
        goRunEnrich getReadme getContent generate rest
    | _ => goRunEnrich getReadme getContent generate rest

/-! ### The TypeScript pipeline (server/index.ts) -/

/-- Outcome of one `fetch` attempt in the TS `fetchReadme` try-block:
the fetch (or reading the body) threw, the response was not ok, or the
response was ok with the given body text. -/
inductive FetchOutcome where
  | thrown : FetchOutcome
  | notOk : FetchOutcome
  | ok : Str → FetchOutcome
deriving DecidableEq

/-- JavaScript string interpolation renders `undefined` as this text. -/
def jsUndefined : Str := "undefined".data

/-- The raw.githubusercontent.com URL the TS `fetchReadme` builds for one
branch candidate. -/
def tsReadmeUrl (owner : Str) (rname : Option Str) (branch : Str) : Str :=
  ("https://raw.githubusercontent.com/".data) ++ owner ++ ("/".data) ++
    (rname.getD jsUndefined) ++ ("/".data) ++ branch ++ ("/README.md".data)

/-- The ordered branch candidates of the TS `fetchReadme`. -/
def tsBranches : List Str := [("main".data), ("master".data)]

/-- The candidate loop of the TS `fetchReadme`: first ok response wins, a
thrown fetch is caught and the loop continues, `null` when all fail. -/
def tsFetchLoop (doFetch : Str → FetchOutcome) (owner : Str)
    (rname : Option Str) : List Str → Option Str
  | [] => none
  | b :: rest =>
    match doFetch (tsReadmeUrl owner rname b) with
    | .ok body => some body
    | _ => tsFetchLoop doFetch owner rname rest

/-- TS `fetchReadme`. -/
def tsFetchReadme (doFetch : Str → FetchOutcome) (owner : Str)
    (rname : Option Str) : Option Str :=
  tsFetchLoop doFetch owner rname tsBranches

/-- Fixed placeholder used by the TS pipeline for failed summarization. -/
def tsSummarizeFailed : Str := "要約失敗".data

/-- The fixed instruction template of the TS `summarizeReadme`. -/
def tsPromptHeader : Str := "以下のREADMEの内容を日本語で短く要約せよ。100文字以内で\n\n".data

/-- TS `summarizeReadme`.  `generateContent` is the Gemini call oracle: it
maps the submitted contents to a thrown error or a response whose optional
`text` field may be `undefined`.  `response.text || "要約失敗"` falls back
both on `undefined` and on the empty string; a thrown call is caught and
yields the same fallback.  The second component is the list of submitted
contents (the call is made unconditionally — no empty-input guard, no
truncation). -/
def tsSummarizeReadme (generateContent : Str → Except Unit (Option Str))
    (readme : Str) : Str × List Str :=
  let contents := tsPromptHeader ++ readme
  match generateContent contents with
  | .error _ => (tsSummarizeFailed, [contents])
  | .ok txt =>
    (match txt with
     | some t => if t = [] then tsSummarizeFailed else t
     | none => tsSummarizeFailed, [contents])

/-- TS `const [owner, name] = repo.title.split("/")`: the destructured owner. -/
def tsOwner (repo : TrendingRepo) : Str := (splitAll '/' repo.title).headD []

/-- TS `const [owner, name] = repo.title.split("/")`: the destructured name,
`undefined` (`none`) when the title has no separator. -/
def tsRepoName (repo : TrendingRepo) : Option Str := (splitAll '/' repo.title).get? 1

/-- One element of the TS `getTrendingReposWithSummary` map: fetch the
readme, summarize only when the readme is truthy (non-null and non-empty),
otherwise keep the initial `"要約失敗"`.  Also returns the list of prompts
submitted to the generation backend for this item. -/
def tsEnrichItem (doFetch : Str → FetchOutcome)
    (generateContent : Str → Except Unit (Option Str)) (repo : TrendingRepo) :
    TrendingRepoWithSummary × List Str :=
  match tsFetchReadme doFetch (tsOwner repo) (tsRepoName repo) with
  | some readme =>
    if readme = [] then (withSummary repo tsSummarizeFailed, [])
    else
      let sc := tsSummarizeReadme generateContent readme
      (withSummary repo sc.1, sc.2)
  | none => (withSummary repo tsSummarizeFailed, [])

/-- TS `getTrendingReposWithSummary` over an already-fetched trending list:
`Promise.all(repos.map(...))` resolves to the results in input order, which
the shallow embedding renders as `List.map`. -/
def tsEnrich (doFetch : Str → FetchOutcome)
    (generateContent : Str → Except Unit (Option Str))
    (repos : List TrendingRepo) : List TrendingRepoWithSummary :=
  repos.map (fun r => (tsEnrichItem doFetch generateContent r).1)

/-! ### Discord notification (Go pipeline) -/

/-- Default embed accent color (Discord Blurple) of `languageToColor`. -/
def discordBlurple : Nat := 0x7289DA

/-- Go `strings.TrimPrefix(s, "#")`. -/
def stripHash : Str → Str
  | [] => []
  | c :: rest => if c = '#' then rest else c :: rest

/-- Hexadecimal digit test of the `fmt.Sscanf` `%x` verb. -/
def isHexDigit (c : Char) : Bool :=
  ('0' ≤ c && c ≤ '9') || ('a' ≤ c && c ≤ 'f') || ('A' ≤ c && c ≤ 'F')

/-- Value of one hexadecimal digit. -/
def hexVal (c : Char) : Nat :=
  if '0' ≤ c && c ≤ '9' then c.toNat - '0'.toNat
  else if 'a' ≤ c && c ≤ 'f' then c.toNat - 'a'.toNat + 10
  else if 'A' ≤ c && c ≤ 'F' then c.toNat - 'A'.toNat + 10
  else 0

/-- Accumulate the value of a run of hexadecimal digits. -/
def scanHex : Nat → Str → Nat
  | acc, [] => acc
  | acc, c :: cs => if isHexDigit c then scanHex (16 * acc + hexVal c) cs else acc

/-- `fmt.Sscanf(s, "%x", &result)`: skip leading whitespace, then read a
maximal non-empty run of hexadecimal digits; `none` models a scan error
(no digit present), which leaves `result` unassigned. -/
def sscanfHex (s : Str) : Option Nat :=
  let t := s.dropWhile Char.isWhitespace
  match t with
  | [] => none
  | c :: _ => if isHexDigit c then some (scanHex 0 (t.takeWhile isHexDigit)) else none

/-- Go `languageToColor`: the fixed fallback for the empty string, otherwise
`Sscanf` of the string with a leading `#` stripped into an `int` initialized
to 0 — the scan error is ignored, so an unparsable color leaves 0.  A value
overflowing a 64-bit int also makes the scan fail, leaving 0. -/
def languageToColor (htmlColor : Str) : Nat :=
  if htmlColor = [] then discordBlurple
  else
    match sscanfHex (stripHash htmlColor) with
    | some v => if v < 2 ^ 63 then v else 0
    | none => 0

/-- One field of a Discord embed. -/
structure DiscordEmbedField where
  fname : Str
  value : Str
  isInline : Bool
deriving DecidableEq

/-- A Discord rich embed as built by `buildDiscordMessages`. -/
structure DiscordEmbed where
  title : Str
  descr : Str
  url : Str
  color : Nat
  fields : List DiscordEmbedField
deriving DecidableEq

/-- One outbound webhook payload. -/
structure DiscordWebhookPayload where
  embeds : List DiscordEmbed
deriving DecidableEq

/-- The embed `buildDiscordMessages` builds for one repository. -/
def repoEmbed (repo : TrendingRepoWithSummary) : DiscordEmbed :=
  let lang0 := repo.language.getD []
  let lang := if lang0 = [] then ("不明".data) else lang0
  { title := repo.title, url := repo.url, descr := repo.summary,
    color := languageToColor (repo.languageColor.getD []),
    fields := [
      { fname := ("言語".data), value := lang, isInline := true },
      { fname := ("スター".data),
        value := repo.stars ++ (" (+".data) ++ repo.addStars ++ (")".data),
        isInline := true } ] }

/-- Go `buildDiscordMessages` with its fixed `reposPerMessage = 1`: the
batching loop with step 1 produces exactly one single-embed payload per
repository, in order. -/
def buildDiscordMessages (repos : List TrendingRepoWithSummary) :
    List DiscordWebhookPayload :=
  repos.map (fun r => { embeds := [repoEmbed r] })

/-! ### Structural lemmas -/

theorem dropSummary_withSummary (r : TrendingRepo) (s : Str) :
    dropSummary (withSummary r s) = r := rfl

theorem splitN2_shape (t : Str) :
    (hasSlash t = false ∧ splitN2 '/' t = [t]) ∨
    (∃ a b, hasSlash t = true ∧ splitN2 '/' t = [a, b]) := by
  induction t with
  | nil => exact Or.inl ⟨rfl, rfl⟩
  | cons c cs ih =>
    by_cases hc : c = '/'
    · subst hc
      exact Or.inr ⟨[], cs, by simp [hasSlash], by simp [splitN2]⟩
    · rcases ih with ⟨h1, h2⟩ | ⟨a, b, h1, h2⟩
      · exact Or.inl ⟨by simp [hasSlash, hc, h1], by simp [splitN2, hc, h2]⟩
      · exact Or.inr ⟨c :: a, b, by simp [hasSlash, hc, h1], by simp [splitN2, hc, h2]⟩

theorem goRunEnrich_eq (g1 : Str → Str → Except Str Str)
    (g2 : Str → Except Str Str) (g3 : Str → Except Str Str)
    (items : List TrendingRepo) :
    goRunEnrich g1 g2 g3 items =
      (items.filter (fun r => hasSlash r.title)).map (goEnrichOne g1 g2 g3) := by
  induction items with
  | nil => rfl
  | cons repo rest ih =>
    rcases splitN2_shape repo.title with ⟨h1, h2⟩ | ⟨a, b, h1, h2⟩
    · simp [goRunEnrich, h2, List.filter_cons, h1, ih]
    · simp [goRunEnrich, h2, List.filter_cons, h1, ih, goEnrichOne]

theorem dropSummary_goEnrichOne (g1 : Str → Str → Except Str Str)
    (g2 : Str → Except Str Str) (g3 : Str → Except Str Str)
    (repo : TrendingRepo) :
    dropSummary (goEnrichOne g1 g2 g3 repo) = repo := by
  unfold goEnrichOne
  split <;> rfl

theorem dropSummary_tsEnrichItem (f : Str → FetchOutcome)
    (g : Str → Except Unit (Option Str)) (repo : TrendingRepo) :
    dropSummary (tsEnrichItem f g repo).1 = repo := by
  unfold tsEnrichItem
  split
  · split <;> rfl
  · rfl

theorem tsEnrich_map_dropSummary (f : Str → FetchOutcome)
    (g : Str → Except Unit (Option Str)) (items : List TrendingRepo) :
    (tsEnrich f g items).map dropSummary = items := by
  induction items with
  | nil => rfl
  | cons repo rest ih =>
    simp [tsEnrich, List.map_map] at ih ⊢
    exact ⟨dropSummary_tsEnrichItem f g repo, ih⟩

theorem goRunEnrich_map_dropSummary (g1 : Str → Str → Except Str Str)
    (g2 : Str → Except Str Str) (g3 : Str → Except Str Str)
    (items : List TrendingRepo) :
    (goRunEnrich g1 g2 g3 items).map dropSummary =
      items.filter (fun r => hasSlash r.title) := by
  rw [goRunEnrich_eq, List.map_map]
  have h : dropSummary ∘ goEnrichOne g1 g2 g3 = id := by
    funext r
    exact dropSummary_goEnrichOne g1 g2 g3 r
  rw [h, List.map_id]

theorem tsSummarizeReadme_ne_nil (g : Str → Except Unit (Option Str)) (r : Str) :
    (tsSummarizeReadme g r).1 ≠ [] := by
  unfold tsSummarizeReadme
  cases hg : g (tsPromptHeader ++ r) with
  | error e => simp [hg]; decide
  | ok txt =>
    cases txt with
    | none => simp [hg]; decide
    | some t =>
      by_cases ht : t = []
      · simp [hg, ht]; decide
      · simp [hg, ht]

theorem tsEnrichItem_summary_ne_nil (f : Str → FetchOutcome)
    (g : Str → Except Unit (Option Str)) (repo : TrendingRepo) :
    (tsEnrichItem f g repo).1.summary ≠ [] := by
  unfold tsEnrichItem
  split
  · split
    · simpa [withSummary] using (by decide : tsSummarizeFailed ≠ [])
    · simpa [withSummary] using tsSummarizeReadme_ne_nil g _
  · simpa [withSummary] using (by decide : tsSummarizeFailed ≠ [])

theorem ollamaSummarize_fst_shape (g : Str → Except Str Str) (readme : Str) :
    (ollamaSummarize g readme).1 = .ok goNoDescription ∨
    (∃ e, (ollamaSummarize g readme).1 = .error e) ∨
    (ollamaSummarize g readme).1 = .ok goSummarizeFailed ∨
    (∃ p resp, g p = .ok resp ∧ resp ≠ [] ∧
      (ollamaSummarize g readme).1 = .ok (goTrimSpace resp)) := by
  unfold ollamaSummarize
  by_cases hr : readme = []
  · simp [hr]
  · simp only [hr, if_false]
    cases hg : g (goPromptHeader ++
        (if readme.length > goMaxReadmeLen then readme.take goMaxReadmeLen else readme)) with
    | error e => simp [hg]
    | ok resp =>
      by_cases hresp : resp = []
      · simp [hg, hresp]
      · right; right; right
        exact ⟨_, resp, hg, hresp, by simp [hg, hresp]⟩

theorem goSummaryOf_ne_nil (g : Str → Except Str Str) (readme : Str)
    (H : ∀ p resp, g p = .ok resp → resp = [] ∨ goTrimSpace resp ≠ []) :
    goSummaryOf g readme ≠ [] := by
  unfold goSummaryOf
  rcases ollamaSummarize_fst_shape g readme with h | ⟨e, h⟩ | h | ⟨p, resp, hg, hne, h⟩ <;>
    rw [h]
  · show goNoDescription ≠ []
    decide
  · show goSummarizeFailed ≠ []
    decide
  · show goSummarizeFailed ≠ []
    decide
  · show goTrimSpace resp ≠ []
    rcases H p resp hg with h1 | h1
    · exact absurd h1 hne
    · exact h1

/-- Output seen through one candidate attempt of the TS `fetchReadme`. -/
def outcomeBody : FetchOutcome → Option Str
  | .ok body => some body
  | _ => none

theorem tsFetchLoop_findSome (doFetch : Str → FetchOutcome) (owner : Str)
    (rname : Option Str) (bs : List Str) :
    tsFetchLoop doFetch owner rname bs =
      bs.findSome? (fun b => outcomeBody (doFetch (tsReadmeUrl owner rname b))) := by
  induction bs with
  | nil => rfl
  | cons b rest ih =>
    cases h : doFetch (tsReadmeUrl owner rname b) <;>
      simp [tsFetchLoop, List.findSome?, outcomeBody, h, ih]

theorem isHexDigit_not_ws (c : Char) (h : isHexDigit c = true) :
    c.isWhitespace = false := by
  by_contra hw
  simp only [Bool.not_eq_false] at hw
  simp only [Char.isWhitespace, Bool.or_eq_true, decide_eq_true_eq] at hw
  rcases hw with ((h1 | h1) | h1) | h1 <;> subst h1 <;> exact absurd h (by decide)

theorem takeWhile_all {p : Char → Bool} (s : Str) (h : s.all p = true) :
    s.takeWhile p = s := by
  induction s with
  | nil => rfl
  | cons c cs ih =>
    simp only [List.all_cons, Bool.and_eq_true] at h
    simp [List.takeWhile_cons, h.1, ih h.2]

theorem splitN2_append_sep (a rest : Str) (h : hasSlash a = false) :
    splitN2 '/' (a ++ '/' :: rest) = [a, rest] := by
  induction a with
  | nil => simp [splitN2]
  | cons c cs ih =>
    have hc : ¬(c = '/') := by
      intro hc
      subst hc
      simp [hasSlash] at h
    simp only [hasSlash, if_neg hc] at h
    simp [splitN2, hc, ih h]

theorem splitAll_append_sep (a rest : Str) (h : hasSlash a = false) :
    splitAll '/' (a ++ '/' :: rest) = a :: splitAll '/' rest := by
  induction a with
  | nil => simp [splitAll]
  | cons c cs ih =>
    have hc : ¬(c = '/') := by
      intro hc
      subst hc
      simp [hasSlash] at h
    simp only [hasSlash, if_neg hc] at h
    simp [splitAll, hc, ih h]

/-! ### Concrete fixtures used by counterexamples and witnesses -/

/-- A fetch oracle whose every response has a non-ok status. -/
def fetchAllNotOk : Str → FetchOutcome := fun _ => FetchOutcome.notOk

/-- A Gemini oracle that always answers with the fixed text 概. -/
def geminiConst : Str → Except Unit (Option Str) := fun _ => Except.ok (some ("概".data))

/-- An Ollama oracle answering a single space (a whitespace-only response). -/
def ollamaWhitespace : Str → Except Str Str := fun _ => Except.ok ([' '])

/-- An Ollama oracle answering the fixed text 概. -/
def ollamaConst : Str → Except Str Str := fun _ => Except.ok ("概".data)

/-- A GetReadme oracle that always succeeds with payload R. -/
def getReadmeOk : Str → Str → Except Str Str := fun _ _ => Except.ok ("R".data)

/-- A GetReadme oracle that always fails. -/
def getReadmeErr : Str → Str → Except Str Str := fun _ _ => Except.error ("boom".data)

/-- A GetContent oracle decoding the payload to itself. -/
def getContentOk : Str → Except Str Str := fun p => Except.ok p

/-- A trending item whose title has no owner/name separator. -/
def badRepo : TrendingRepo :=
  { title := "bad".data, url := ("https://example.com/bad".data),
    description := ("x".data), language := none, languageColor := none,
    stars := ("5".data), forks := ("0".data), addStars := ("0".data),
    contributors := [] }

/-- A well-formed trending item with title a/b and description foo. -/
def abRepo : TrendingRepo :=
  { title := ("a/b".data), url := ("https://example.com/ab".data),
    description := ("foo".data), language := none, languageColor := none,
    stars := ("10".data), forks := ("1".data), addStars := ("2".data),
    contributors := [] }

/-- A trending item whose title a/b/c has two separators. -/
def abcRepo : TrendingRepo :=
  { title := ("a/b/c".data), url := ("https://example.com/abc".data),
    description := ("x".data), language := none, languageColor := none,
    stars := ("1".data), forks := ("0".data), addStars := ("0".data),
    contributors := [] }

/-- An enriched item carrying a parsable language color. -/
def sampleEnriched : TrendingRepoWithSummary :=
  { title := ("a/b".data), url := ("https://example.com/ab".data),
    description := ("foo".data), summary := ("要約".data),
    language := some ("Go".data), languageColor := some ("#7db700".data),
    stars := ("10".data), forks := ("1".data), addStars := ("2".data),
    contributors := [] }

/-! ### The claims -/

/-- C1 counterexample: in the TypeScript pipeline an item whose title
contains no '/' separator is not omitted: enriching the single
separator-less item bad still outputs that item. -/
theorem ts_output_keeps_separatorless_title :
    (tsEnrich fetchAllNotOk geminiConst [badRepo]).map (fun r => r.title)
        = [("bad".data)]
      ∧ hasSlash ("bad".data) = false := by decide

/-- C1 (corrected): in the Go pipeline every item whose title lacks the '/'
separator is omitted from the enrichment output while every item whose title
contains it is retained, in order, and a malformed title never fails the run
(the enrichment is a total function); in the TypeScript pipeline no item is
omitted: the output has exactly one enriched item per input item. -/
theorem go_omits_separatorless_ts_retains_all
    (g1 : Str → Str → Except Str Str) (g2 : Str → Except Str Str)
    (g3 : Str → Except Str Str) (f : Str → FetchOutcome)
    (g : Str → Except Unit (Option Str)) (items : List TrendingRepo) :
    (goRunEnrich g1 g2 g3 items).map (fun r => r.title)
        = (items.filter (fun r => hasSlash r.title)).map (fun r => r.title)
      ∧ (tsEnrich f g items).length = items.length := by
  constructor
  · have h := congrArg (List.map (fun r : TrendingRepo => r.title))
      (goRunEnrich_map_dropSummary g1 g2 g3 items)
    rw [List.map_map] at h
    exact h
  · simp [tsEnrich]

/-- C2 counterexample: TypeScript pipeline with the README absent on both
branch candidates: the summarizer is never invoked (the request trace is
empty) and the summary is the fixed failure placeholder — the item's
description foo is not used as summarization input. -/
theorem ts_absent_readme_skips_summarizer :
    (tsEnrichItem fetchAllNotOk geminiConst abRepo).2 = []
      ∧ (tsEnrichItem fetchAllNotOk geminiConst abRepo).1.summary
          = tsSummarizeFailed := by decide

/-- C2 (corrected): in the Go pipeline a failed readme fetch makes the run
summarize the item's description instead, and the item stays in the output;
in the TypeScript pipeline an absent readme skips the summarizer entirely and
the item appears with the fixed failure placeholder. -/
theorem go_description_fallback_ts_skips_summarizer
    (g1 : Str → Str → Except Str Str) (g2 : Str → Except Str Str)
    (g3 : Str → Except Str Str) (f : Str → FetchOutcome)
    (g : Str → Except Unit (Option Str)) (repo : TrendingRepo)
    (owner rname : Str) (e : Str)
    (hgo : goFetchReadme g1 g2 owner rname = .error e)
    (hts : tsFetchReadme f (tsOwner repo) (tsRepoName repo) = none) :
    goEnrichItem g1 g2 g3 repo owner rname
        = withSummary repo (goSummaryOf g3 repo.description)
      ∧ tsEnrichItem f g repo = (withSummary repo tsSummarizeFailed, []) := by
  constructor
  · unfold goEnrichItem goReadmeOf
    rw [hgo]
  · unfold tsEnrichItem
    rw [hts]

/-- Witness for C2 at concrete oracles and the item a/b. -/
theorem go_description_fallback_witness :
    goEnrichItem getReadmeErr getContentOk ollamaConst abRepo ("a".data) ("b".data)
        = withSummary abRepo (goSummaryOf ollamaConst ("foo".data))
      ∧ tsEnrichItem fetchAllNotOk geminiConst abRepo
        = (withSummary abRepo tsSummarizeFailed, []) := by
  have h := go_description_fallback_ts_skips_summarizer getReadmeErr getContentOk
    ollamaConst fetchAllNotOk geminiConst abRepo ("a".data) ("b".data)
    (("get readme: ".data) ++ ("boom".data)) rfl (by decide)
  exact h

/-- C3 counterexample: Go pipeline with a backend whose response is a single
space: the enriched item's summary is the empty string. -/
theorem go_whitespace_response_gives_empty_summary :
    (goRunEnrich getReadmeOk getContentOk ollamaWhitespace [abRepo]).map
      (fun r => r.summary) = [([] : Str)] := by decide

/-- C3 (corrected): the TypeScript pipeline's summaries are always non-empty;
the Go pipeline's summaries are non-empty provided every successful backend
response is empty or trims to a non-empty string (the Go code checks
emptiness before trimming, so a non-empty all-whitespace response slips
through and trims to the empty summary). -/
theorem summary_nonempty_unless_whitespace_response
    (f : Str → FetchOutcome) (g : Str → Except Unit (Option Str))
    (g1 : Str → Str → Except Str Str) (g2 : Str → Except Str Str)
    (g3 : Str → Except Str Str) (items itemsGo : List TrendingRepo)
    (H : ∀ p resp, g3 p = .ok resp → resp = [] ∨ goTrimSpace resp ≠ []) :
    (∀ r ∈ tsEnrich f g items, r.summary ≠ []) ∧
    (∀ r ∈ goRunEnrich g1 g2 g3 itemsGo, r.summary ≠ []) := by
  constructor
  · intro r hr
    rcases List.mem_map.mp hr with ⟨x, hx, rfl⟩
    exact tsEnrichItem_summary_ne_nil f g x
  · intro r hr
    rw [goRunEnrich_eq] at hr
    rcases List.mem_map.mp hr with ⟨x, hx, rfl⟩
    unfold goEnrichOne
    split
    · simpa [goEnrichItem, withSummary] using goSummaryOf_ne_nil g3 _ H
    · simpa [withSummary] using (by decide : goSummarizeFailed ≠ [])

/-- Witness for C3 at concrete oracles whose responses trim to 概. -/
theorem summary_nonempty_witness :
    (∀ r ∈ tsEnrich fetchAllNotOk geminiConst [abRepo], r.summary ≠ []) ∧
    (∀ r ∈ goRunEnrich getReadmeOk getContentOk ollamaConst [abRepo], r.summary ≠ []) := by
  refine summary_nonempty_unless_whitespace_response fetchAllNotOk geminiConst
    getReadmeOk getContentOk ollamaConst [abRepo] [abRepo] ?_
  intro p resp h
  have h2 : ("概".data : Str) = resp := by injection h
  right
  rw [← h2]
  decide

/-- C4 (confirmed): enrichment preserves input order in both pipelines: the
Go output is exactly the in-order image of the retained
(separator-containing) items, and the i-th TypeScript output carries the
i-th input's identifier, regardless of the oracles (the concurrent
`Promise.all` collects results by input index). -/
theorem enrich_preserves_input_order
    (g1 : Str → Str → Except Str Str) (g2 : Str → Except Str Str)
    (g3 : Str → Except Str Str) (f : Str → FetchOutcome)
    (g : Str → Except Unit (Option Str)) (items : List TrendingRepo) :
    goRunEnrich g1 g2 g3 items
        = (items.filter (fun r => hasSlash r.title)).map (goEnrichOne g1 g2 g3)
      ∧ (tsEnrich f g items).map (fun r => r.title) = items.map (fun r => r.title) := by
  refine ⟨goRunEnrich_eq g1 g2 g3 items, ?_⟩
  have h := congrArg (List.map (fun r : TrendingRepo => r.title))
    (tsEnrich_map_dropSummary f g items)
  rw [List.map_map] at h
  exact h

/-- C5 counterexample: the TypeScript summarizer has no empty-input guard: on
the empty input it submits one request (the bare template) to the generation
backend and returns the backend's text, not the fixed no-description
placeholder. -/
theorem ts_empty_input_calls_backend :
    tsSummarizeReadme geminiConst [] = (("概".data), [tsPromptHeader])
      ∧ ("概".data) ≠ goNoDescription := by decide

/-- C5 (corrected): the Go summarizer returns the fixed no-description
placeholder 説明なし on empty input with an empty request trace (no backend
call), whatever the backend; the TypeScript summarizer instead submits the
bare template even for empty input.  (The TypeScript orchestrator never
passes it empty text, since falsy readmes skip summarization.) -/
theorem empty_input_placeholder_go_only
    (g3 : Str → Except Str Str) (g : Str → Except Unit (Option Str)) :
    ollamaSummarize g3 [] = (.ok goNoDescription, [])
      ∧ (tsSummarizeReadme g []).2 = [tsPromptHeader] := by
  constructor
  · rfl
  · unfold tsSummarizeReadme
    rw [List.append_nil]
    cases hg : g tsPromptHeader <;> simp [hg]

/-- The request trace of the Go summarizer: empty for empty input, otherwise
exactly one prompt, the template followed by the (possibly truncated) input. -/
theorem ollamaSummarize_snd (g3 : Str → Except Str Str) (readme : Str) :
    (ollamaSummarize g3 readme).2 =
      if readme = [] then []
      else [goPromptHeader ++
        (if readme.length > goMaxReadmeLen then readme.take goMaxReadmeLen else readme)] := by
  unfold ollamaSummarize
  by_cases hr : readme = []
  · simp [hr]
  · simp only [hr, if_false]
    cases hg : g3 (goPromptHeader ++
        (if readme.length > goMaxReadmeLen then readme.take goMaxReadmeLen else readme)) <;>
      simp [hg]

/-- C6 counterexample: the TypeScript summarizer applies no truncation: for a
document of 10001 characters (longer than the 10000-character bound) the
single outbound request is the template followed by the full document, whose
length exceeds the bound plus the template length. -/
theorem ts_prompt_exceeds_bound :
    (tsSummarizeReadme geminiConst (List.replicate 10001 'a')).2
        = [tsPromptHeader ++ List.replicate 10001 'a']
      ∧ goMaxReadmeLen + tsPromptHeader.length
        < (tsPromptHeader ++ List.replicate 10001 'a').length := by
  constructor
  · rfl
  · rw [List.length_append, List.length_replicate]
    simp only [goMaxReadmeLen]
    omega

/-- C6 (corrected): the Go summarizer truncates its input to maxReadmeLen
before submission, so every outbound prompt has length at most the template
length plus the bound; the TypeScript summarizer submits the template plus
the untruncated input, with no bound. -/
theorem go_truncates_prompt_ts_does_not
    (g3 : Str → Except Str Str) (g : Str → Except Unit (Option Str))
    (readme treadme : Str) :
    (∀ p ∈ (ollamaSummarize g3 readme).2,
        p.length ≤ goPromptHeader.length + goMaxReadmeLen)
      ∧ (tsSummarizeReadme g treadme).2 = [tsPromptHeader ++ treadme] := by
  constructor
  · intro p hp
    rw [ollamaSummarize_snd] at hp
    by_cases hr : readme = []
    · simp [hr] at hp
    · simp only [hr, if_false, List.mem_singleton] at hp
      subst hp
      rw [List.length_append]
      by_cases hl : readme.length > goMaxReadmeLen
      · simp [hl, List.length_take]
      · simp only [hl, if_false]
        omega
  · unfold tsSummarizeReadme
    cases hg : g (tsPromptHeader ++ treadme) <;> simp [hg]

/-- Witness for C6: a short concrete document respects the prompt bound. -/
theorem go_truncates_prompt_witness :
    ((goPromptHeader ++ ("ab".data)) ∈ (ollamaSummarize ollamaConst ("ab".data)).2)
      ∧ (goPromptHeader ++ ("ab".data)).length
          ≤ goPromptHeader.length + goMaxReadmeLen := by
  exact ⟨by decide,
    (go_truncates_prompt_ts_does_not ollamaConst geminiConst ("ab".data) []).1 _ (by decide)⟩

/-- C7 counterexample: the Go documentation fetcher reports total failure as
an error value, not as absence: when the library call fails, fetchReadme
returns an error. -/
theorem go_fetch_failure_is_error :
    goFetchReadme getReadmeErr getContentOk ("o".data) ("n".data)
      = Except.error (("get readme: ".data) ++ ("boom".data)) := rfl

/-- C7 (corrected): the TypeScript fetcher tries the branch candidates in
order and returns the body of the first ok response — a thrown attempt does
not abort the remaining candidates, and null (absence, not an error) results
exactly when no candidate responds ok; the Go fetcher instead makes a single
library call and propagates its failure as an error (which the run then
converts to the description fallback). -/
theorem ts_fetch_first_success_go_propagates_error
    (f : Str → FetchOutcome) (owner : Str) (rname : Option Str)
    (g1 : Str → Str → Except Str Str) (g2 : Str → Except Str Str)
    (owner2 rname2 : Str) (e : Str) (hgo : g1 owner2 rname2 = .error e) :
    tsFetchReadme f owner rname
        = tsBranches.findSome? (fun b => outcomeBody (f (tsReadmeUrl owner rname b)))
      ∧ goFetchReadme g1 g2 owner2 rname2 = .error (("get readme: ".data) ++ e) := by
  refine ⟨tsFetchLoop_findSome f owner rname tsBranches, ?_⟩
  unfold goFetchReadme
  rw [hgo]

/-- Witness for C7 at concrete oracles. -/
theorem ts_fetch_first_success_witness :
    tsFetchReadme fetchAllNotOk ("a".data) (some ("b".data))
        = tsBranches.findSome?
            (fun b => outcomeBody (fetchAllNotOk (tsReadmeUrl ("a".data) (some ("b".data)) b)))
      ∧ goFetchReadme getReadmeErr getContentOk ("o2".data) ("n2".data)
        = .error (("get readme: ".data) ++ ("boom".data)) :=
  ts_fetch_first_success_go_propagates_error fetchAllNotOk ("a".data) (some ("b".data))
    getReadmeErr getContentOk ("o2".data) ("n2".data) ("boom".data) rfl

/-- C8 (confirmed): enrichment never lengthens the list, and each surviving
output item agrees with its corresponding input item on every original field
— identifier, URL, description, language, language color, stars, forks, star
delta, contributors — the summary being the only addition: forgetting the
summary recovers exactly the retained input items, in order, in both
pipelines. -/
theorem enrich_frame_preserves_fields
    (g1 : Str → Str → Except Str Str) (g2 : Str → Except Str Str)
    (g3 : Str → Except Str Str) (f : Str → FetchOutcome)
    (g : Str → Except Unit (Option Str)) (items : List TrendingRepo) :
    (goRunEnrich g1 g2 g3 items).length ≤ items.length
      ∧ (tsEnrich f g items).length ≤ items.length
      ∧ (goRunEnrich g1 g2 g3 items).map dropSummary
          = items.filter (fun r => hasSlash r.title)
      ∧ (tsEnrich f g items).map dropSummary = items := by
  refine ⟨?_, ?_, goRunEnrich_map_dropSummary g1 g2 g3 items,
    tsEnrich_map_dropSummary f g items⟩
  · have h := congrArg List.length (goRunEnrich_map_dropSummary g1 g2 g3 items)
    rw [List.length_map] at h
    rw [h]
    exact List.length_filter_le _ _
  · have h := congrArg List.length (tsEnrich_map_dropSummary f g items)
    rw [List.length_map] at h
    exact le_of_eq h

/-- C9 counterexample: a non-empty unparsable color string: the scan fails,
the ignored error leaves the zero-initialized result, and 0 — not the fixed
fallback color — is returned. -/
theorem unparsable_color_yields_zero :
    languageToColor ("zzz".data) = 0
      ∧ (("zzz".data) : Str) ≠ []
      ∧ (0 : Nat) ≠ discordBlurple := by decide

/-- C9 (corrected): the webhook embed's accent color comes from
languageToColor of the item's language color (empty when absent); the color
is the parsed hex value whenever the string is a parsable in-range hex code
(optionally #-prefixed), and the fixed fallback is used when the color is
absent or empty — but a non-empty unparsable color yields 0 (the zero value
the ignored scan error leaves behind), not the fallback. -/
theorem embed_color_parse_behavior (repo : TrendingRepoWithSummary)
    (s : Str) (c : Char) (rest : Str) :
    (repoEmbed repo).color = languageToColor (repo.languageColor.getD [])
      ∧ languageToColor [] = discordBlurple
      ∧ (s.all isHexDigit = true → s ≠ [] → scanHex 0 s < 2 ^ 63 →
          languageToColor ('#' :: s) = scanHex 0 s)
      ∧ (isHexDigit c = false → ¬(c = '#') → c.isWhitespace = false →
          languageToColor (c :: rest) = 0) := by
  refine ⟨rfl, by decide, ?_, ?_⟩
  · intro hall hne hlt
    unfold languageToColor
    rw [if_neg (by simp : ¬('#' :: s = []))]
    have h1 : stripHash ('#' :: s) = s := by simp [stripHash]
    rw [h1]
    obtain ⟨c0, s0, rfl⟩ : ∃ c0 s0, s = c0 :: s0 := by
      cases s with
      | nil => exact absurd rfl hne
      | cons c0 s0 => exact ⟨c0, s0, rfl⟩
    have hall2 := hall
    simp only [List.all_cons, Bool.and_eq_true] at hall2
    have hws : c0.isWhitespace = false := isHexDigit_not_ws c0 hall2.1
    have ht : (c0 :: s0).dropWhile Char.isWhitespace = c0 :: s0 := by
      simp [List.dropWhile_cons, hws]
    have htw : (c0 :: s0).takeWhile isHexDigit = c0 :: s0 := takeWhile_all _ hall
    simp [sscanfHex, ht, htw, hall2.1, hlt]
    intro h2
    omega
  · intro hc hhash hws
    unfold languageToColor
    rw [if_neg (by simp : ¬(c :: rest = []))]
    have h1 : stripHash (c :: rest) = c :: rest := by simp [stripHash, hhash]
    rw [h1]
    have ht : (c :: rest).dropWhile Char.isWhitespace = c :: rest := by
      simp [List.dropWhile_cons, hws]
    simp [sscanfHex, ht, hc]

/-- Witness for C9 at the color #7db700 and the unparsable zzz. -/
theorem embed_color_witness :
    (repoEmbed sampleEnriched).color
        = languageToColor (sampleEnriched.languageColor.getD [])
      ∧ languageToColor [] = discordBlurple
      ∧ languageToColor ('#' :: ("7db700".data)) = scanHex 0 ("7db700".data)
      ∧ languageToColor ('z' :: ("zz".data)) = 0 := by
  have h := embed_color_parse_behavior sampleEnriched ("7db700".data) 'z' ("zz".data)
  exact ⟨h.1, h.2.1, h.2.2.1 (by decide) (by decide) (by decide),
    h.2.2.2 (by decide) (by decide) (by decide)⟩

/-- C10 (confirmed): for a title with two or more separators, written
a ++ "/" ++ b ++ "/" ++ c with a and b separator-free, both pipelines retain
the item, but Go's SplitN(title, "/", 2) uses the entire remainder
b ++ "/" ++ c as the repository name for the documentation fetch while the
TypeScript destructuring of title.split("/") uses only the middle segment b;
the two names always differ, so the pipelines are not equivalent on such
inputs. -/
theorem pipelines_disagree_on_multi_separator_titles
    (g1 : Str → Str → Except Str Str) (g2 : Str → Except Str Str)
    (g3 : Str → Except Str Str) (f : Str → FetchOutcome)
    (g : Str → Except Unit (Option Str)) (repo : TrendingRepo) (a b c : Str)
    (ha : hasSlash a = false) (hb : hasSlash b = false)
    (ht : repo.title = a ++ '/' :: (b ++ '/' :: c)) :
    (goRunEnrich g1 g2 g3 [repo]).length = 1
      ∧ (tsEnrich f g [repo]).length = 1
      ∧ splitN2 '/' repo.title = [a, b ++ '/' :: c]
      ∧ tsRepoName repo = some b
      ∧ b ++ '/' :: c ≠ b := by
  have hsplit : splitN2 '/' repo.title = [a, b ++ '/' :: c] := by
    rw [ht]
    exact splitN2_append_sep a _ ha
  have hall : splitAll '/' repo.title = a :: b :: splitAll '/' c := by
    rw [ht, splitAll_append_sep a _ ha, splitAll_append_sep b c hb]
  refine ⟨?_, rfl, hsplit, ?_, ?_⟩
  · simp [goRunEnrich, hsplit]
  · unfold tsRepoName
    rw [hall]
    rfl
  · intro h
    have h2 := congrArg List.length h
    simp only [List.length_append, List.length_cons] at h2
    omega

/-- Witness for C10 at the title a/b/c. -/
theorem pipelines_disagree_witness :
    (goRunEnrich getReadmeOk getContentOk ollamaConst [abcRepo]).length = 1
      ∧ (tsEnrich fetchAllNotOk geminiConst [abcRepo]).length = 1
      ∧ splitN2 '/' abcRepo.title = [("a".data), ("b/c".data)]
      ∧ tsRepoName abcRepo = some ("b".data)
      ∧ ("b/c".data) ≠ ("b".data) := by
  have h := pipelines_disagree_on_multi_separator_titles getReadmeOk getContentOk
    ollamaConst fetchAllNotOk geminiConst abcRepo ("a".data) ("b".data) ("c".data)
    (by decide) (by decide) (by decide)
  exact h
